import Mathlib

/-!
Verification development for the WakaTime yearly-heatmap pipeline
(`scripts/waka_yearly_heatmap.py`).

The script is shallowly embedded: JSON values are an inductive type,
Python dictionary / truthiness / `float()` semantics are modelled
explicitly, Python floats are modelled as rationals, and calendar dates
(`datetime.date`) are modelled as civil day numbers (integers), with the
standard civil-calendar conversion used for concrete dates.  Fallible
Python code (code that can raise) is modelled in the `Except` monad.
-/

/-- A JSON value as produced by `json.loads`.  Python's `None` (both JSON
`null` and the result of `dict.get` on a missing key) is `Json.null`;
numbers are modelled as rationals; object keys are strings. -/
inductive Json where
  | null : Json
  | bool (b : Bool) : Json
  | num (q : ℚ) : Json
  | str (s : String) : Json
  | arr (xs : List Json) : Json
  | obj (fields : List (String × Json)) : Json

/-- Python truthiness (`bool(x)`) on JSON values: `None`, `False`, `0`,
`""`, `[]` and `` {} `` are falsy, everything else truthy. -/
def pyTruthy : Json → Bool
  | .null => false
  | .bool b => b
  | .num q => q != 0
  | .str s => s != ""
  | .arr xs => !xs.isEmpty
  | .obj fs => !fs.isEmpty

/-- Equality test between dictionary keys.  The script only ever stores
scalar keys (strings in every run, since `pySetKey` rejects unhashable
containers), so a shallow comparison on scalars suffices; containers
compare unequal to everything.  (Python's cross-type numeric key equality
`1 == True` is not exercised by any claim.) -/
def scalarKeyEq : Json → Json → Bool
  | .null, .null => true
  | .bool a, .bool b => a == b
  | .num a, .num b => a == b
  | .str a, .str b => a == b
  | _, _ => false

/-- First binding of a key in an object's field list (objects decoded by
`json.loads` have unique keys, so first = only). -/
def lookupField (fs : List (String × Json)) (k : String) : Option Json :=
  fs.lookup k

/-- Python `x.get(k)`: on a dict, the value or `None`; on anything else
an `AttributeError`. -/
def pyGet (j : Json) (k : String) : Except String Json :=
  match j with
  | .obj fs => .ok ((lookupField fs k).getD .null)
  | _ => .error "AttributeError: get"

/-- Python `x.get(k, d)` with an explicit default. -/
def pyGetD (j : Json) (k : String) (d : Json) : Except String Json :=
  match j with
  | .obj fs => .ok ((lookupField fs k).getD d)
  | _ => .error "AttributeError: get"

/-- Python `x[k]` for a string key: on a dict, the value or a `KeyError`;
on anything else a `TypeError`. -/
def pyIndex (j : Json) (k : String) : Except String Json :=
  match j with
  | .obj fs =>
    match lookupField fs k with
    | some v => .ok v
    | none => .error "KeyError"
  | _ => .error "TypeError: not subscriptable"

/-- Python `k in x` for a string `k`: key test on a dict, element test on
a list (elements that are equal strings), substring test on a string,
`TypeError` otherwise. -/
def pyContains (j : Json) (k : String) : Except String Bool :=
  match j with
  | .obj fs => .ok (fs.any (fun kv => kv.1 == k))
  | .arr xs => .ok (xs.any (fun x => scalarKeyEq x (.str k)))
  | .str s => .ok (decide (k.data <:+: s.data))
  | _ => .error "TypeError: argument of type is not iterable"

/-- Python `x[:10]`: defined on strings and lists, `TypeError` otherwise. -/
def pySliceTen : Json → Except String Json
  | .str s => .ok (.str (String.mk (s.data.take 10)))
  | .arr xs => .ok (.arr (xs.take 10))
  | _ => .error "TypeError: not subscriptable"

/-- Python `iter(x)` as used by a `for` loop: lists yield elements,
strings yield one-character strings, dicts yield their keys, everything
else raises a `TypeError`. -/
def pyIter : Json → Except String (List Json)
  | .arr xs => .ok xs
  | .str s => .ok (s.data.map (fun c => .str (String.mk [c])))
  | .obj fs => .ok (fs.map (fun kv => .str kv.1))
  | _ => .error "TypeError: not iterable"

/-- Value of an unsigned decimal digit string (`none` if empty or any
character is not a digit). -/
def digitsVal (cs : List Char) : Option ℕ :=
  if cs.isEmpty || !cs.all (·.isDigit) then none
  else some (cs.foldl (fun acc c => 10 * acc + (c.toNat - 48)) 0)

/-- Value of an unsigned decimal literal: digits with an optional single
point and fractional digits (at least one digit overall), e.g. `"12"`,
`"12.5"`, `".5"`, `"12."`. -/
def decimalVal (cs : List Char) : Option ℚ :=
  let ip := cs.takeWhile (· ≠ '.')
  let rest := cs.dropWhile (· ≠ '.')
  match rest with
  | [] => (digitsVal ip).map (fun n => (n : ℚ))
  | '.' :: fp =>
    if ip.isEmpty && fp.isEmpty then none
    else if !ip.all (·.isDigit) || !fp.all (·.isDigit) then none
    else
      let ipv : ℚ := ((digitsVal ip).getD 0 : ℕ)
      let fpv : ℚ := ((digitsVal fp).getD 0 : ℕ)
      some (ipv + fpv / (10 : ℚ) ^ fp.length)
  | _ => none

/-- Python `float(s)` on a string, restricted to plain signed decimal
literals (the script's payloads never contain exponent/`inf`/`nan`
spellings, which this model rejects). -/
def strToFloat (s : String) : Option ℚ :=
  match s.data with
  | '-' :: cs => (decimalVal cs).map (fun q => -q)
  | '+' :: cs => decimalVal cs
  | cs => decimalVal cs

/-- Python `float(x)` on a JSON value: numbers coerce, booleans coerce to
0/1, decimal strings parse, everything else raises. -/
def pyFloat : Json → Except String ℚ
  | .num q => .ok q
  | .bool b => .ok (if b then 1 else 0)
  | .str s =>
    match strToFloat s with
    | some q => .ok q
    | none => .error "ValueError: could not convert string to float"
  | _ => .error "TypeError: float() argument"

/-- Inserting into a Python dict: an existing key keeps its position and
gets the new value, a new key is appended; unhashable keys (lists/dicts)
raise a `TypeError`. -/
def setAssoc (m : List (Json × ℚ)) (k : Json) (v : ℚ) : List (Json × ℚ) :=
  if m.any (fun kv => scalarKeyEq kv.1 k) then
    m.map (fun kv => if scalarKeyEq kv.1 k then (kv.1, v) else kv)
  else m ++ [(k, v)]

/-- Python `m[k] = v` on a dict keyed by JSON scalars. -/
def pySetKey (m : List (Json × ℚ)) (k : Json) (v : ℚ) :
    Except String (List (Json × ℚ)) :=
  match k with
  | .arr _ => .error "TypeError: unhashable type"
  | .obj _ => .error "TypeError: unhashable type"
  | _ => .ok (setAssoc m k v)

/-! ## Parser (`parse_days_insight`) -/

/-- The date-resolution part of the loop body of `parse_days_insight`:
`date_str = item.get("date")`, and when that is falsy and
`item.get("range")` is a dict with a truthy `"start"`, the first ten
characters of `item["range"]["start"]`. -/
def resolveDate (item : Json) : Except String Json := do
  let d ← pyGet item "date"
  if pyTruthy d then pure d
  else do
    let r ← pyGet item "range"
    match r with
    | .obj _ => do
      let s ← pyGet r "start"
      if pyTruthy s then pySliceTen s else pure d
    | _ => pure d

/-- The total-resolution chain of `parse_days_insight`:
`item.get("total") or item.get("total_seconds") or
(item.get("grand_total") or ` `{}` `).get("total_seconds") or 0`,
with Python `or` returning its first truthy operand. -/
def resolveTotal (item : Json) : Except String Json := do
  let t1 ← pyGet item "total"
  if pyTruthy t1 then pure t1
  else do
    let t2 ← pyGet item "total_seconds"
    if pyTruthy t2 then pure t2
    else do
      let g ← pyGet item "grand_total"
      let g' := if pyTruthy g then g else Json.obj []
      let t3 ← pyGet g' "total_seconds"
      if pyTruthy t3 then pure t3 else pure (Json.num 0)

/-- One iteration of the loop of `parse_days_insight`: resolve the date,
resolve the total chain, and when the date is truthy store
`float(total_seconds)` under it (last write wins). -/
def parseStep (m : List (Json × ℚ)) (item : Json) :
    Except String (List (Json × ℚ)) := do
  let d ← resolveDate item
  let t ← resolveTotal item
  if pyTruthy d then do
    let q ← pyFloat t
    pySetKey m d q
  else pure m

/-- `parse_days_insight(data)`: iterate over `data.get("days", [])`,
building the date-to-seconds dict. -/
def parse_days_insight (data : Json) : Except String (List (Json × ℚ)) := do
  let days ← pyGetD data "days" (.arr [])
  let items ← pyIter days
  items.foldlM parseStep []

/-! ## Fetcher (`fetch_json_with_retry`)

The loop performs one HTTP request per attempt; the environment's
response to each attempt is modelled as an `AttemptResult` (a decoded
JSON payload, an `HTTPError` with a status code, or a `URLError`), and
the function consumes the list of outcomes of attempts `1..max_tries`.
The fixed `time.sleep` delay between attempts has no observable effect
on the returned value and is not modelled. -/

/-- The environment's outcome of one request attempt. -/
inductive AttemptResult where
  | payload (p : Json) : AttemptResult
  | httpError (code : ℕ) : AttemptResult
  | netError : AttemptResult

/-- The message of the `RuntimeError` raised on HTTP 402, naming the
requested range. -/
def paymentRequiredMsg (rng : String) : String :=
  "HTTP 402 PAYMENT REQUIRED for range '" ++ rng ++
    "'. Try RANGE=last_year/last_6_months/last_30_days."

/-- The re-raised `HTTPError` for a non-retryable status code. -/
def httpErrorMsg (code : ℕ) : String :=
  "HTTP " ++ toString code

/-- The code run after the attempt loop exhausts:
`if last_payload and "data" in last_payload: return last_payload["data"]`,
else return the empty dict. -/
def fetchExhausted : Option Json → Except String Json
  | none => .ok (.obj [])
  | some p =>
    if pyTruthy p then do
      let b ← pyContains p "data"
      if b then pyIndex p "data" else .ok (.obj [])
    else .ok (.obj [])

/-- `fetch_json_with_retry`: the attempt loop, carrying `last_payload`.
A decoded payload updates `last_payload`, then returns its `"data"`
(default `` {} ``) when `data.get("is_up_to_date", True)` is truthy and
otherwise sleeps and retries; HTTP 402 raises `paymentRequiredMsg`;
HTTP 429/500/502/503/504 and network errors sleep and retry; any other
HTTP error re-raises. -/
def fetch_json_with_retry (rng : String) :
    List AttemptResult → Option Json → Except String Json
  | [], last => fetchExhausted last
  | .payload p :: rest, _ => do
    let data ← pyGetD p "data" (.obj [])
    let flag ← pyGetD data "is_up_to_date" (.bool true)
    if pyTruthy flag then .ok data
    else fetch_json_with_retry rng rest (some p)
  | .httpError c :: rest, last =>
    if c = 402 then .error (paymentRequiredMsg rng)
    else if c ∈ [429, 500, 502, 503, 504] then
      fetch_json_with_retry rng rest last
    else .error (httpErrorMsg c)
  | .netError :: rest, last => fetch_json_with_retry rng rest last

/-- The most recently successfully-decoded payload after a run of
attempts, starting from a previously decoded one. -/
def lastDecoded : Option Json → List AttemptResult → Option Json
  | last, [] => last
  | _, .payload p :: rest => lastDecoded (some p) rest
  | last, _ :: rest => lastDecoded last rest

/-- An attempt outcome that consumes an attempt without returning or
raising: a payload the server reports as stale (its `"data"` is a dict
whose `"is_up_to_date"` is present and falsy), a retryable HTTP status,
or a network error. -/
def staleOrRetryable : AttemptResult → Bool
  | .payload (.obj fs) =>
    match lookupField fs "data" with
    | some (.obj dfs) =>
      match lookupField dfs "is_up_to_date" with
      | some f => !pyTruthy f
      | none => false
    | _ => false
  | .payload _ => false
  | .httpError c => c ∈ [429, 500, 502, 503, 504]
  | .netError => true


/-! ## Leveler (`percentile`, `make_thresholds`, `level_for_seconds`) -/

/-- `percentile(sorted_vals, p)`: linear interpolation between order
statistics at index `(len - 1) * p`; `0.0` on the empty list and the
sole element on a singleton.  (Python float arithmetic is modelled
exactly on rationals; `0.25/0.5/0.75` are exact in both.) -/
def percentile (sorted_vals : List ℚ) (p : ℚ) : ℚ :=
  if sorted_vals.isEmpty then 0
  else if sorted_vals.length = 1 then sorted_vals.getD 0 0
  else
    let idx : ℚ := ((sorted_vals.length : ℚ) - 1) * p
    let lo : ℤ := ⌊idx⌋
    let hi : ℤ := ⌈idx⌉
    if lo = hi then sorted_vals.getD lo.toNat 0
    else
      let frac : ℚ := idx - (lo : ℚ)
      sorted_vals.getD lo.toNat 0 * (1 - frac) +
        sorted_vals.getD hi.toNat 0 * frac

/-- The unified linear-interpolation form of the main branch of
`percentile` (a proof device: both branches of the `lo == hi` test of
`percentile` equal this expression). -/
def interpAt (l : List ℚ) (idx : ℚ) : ℚ :=
  l.getD ⌊idx⌋.toNat 0 * (1 - (idx - (⌊idx⌋ : ℚ))) +
    l.getD ⌈idx⌉.toNat 0 * (idx - (⌊idx⌋ : ℚ))

/-- `make_thresholds(nonzero_seconds)`: sort the values (Python
`sorted`) and take the 25th/50th/75th percentiles. -/
def make_thresholds (nonzero_seconds : List ℚ) : ℚ × ℚ × ℚ :=
  let vals := List.insertionSort (· ≤ ·) nonzero_seconds
  (percentile vals (1/4), percentile vals (1/2), percentile vals (3/4))

/-- `level_for_seconds(sec, thresholds)`. -/
def level_for_seconds (sec : ℚ) (thresholds : ℚ × ℚ × ℚ) : ℕ :=
  if sec ≤ 0 then 0
  else if sec ≤ thresholds.1 then 1
  else if sec ≤ thresholds.2.1 then 2
  else if sec ≤ thresholds.2.2 then 3
  else 4

/-! ## Renderer (`build_svg`)

`datetime.date` values are modelled as civil day numbers: the integer
counting days since 0000-03-01 of the proleptic Gregorian calendar.
Ordering and `timedelta` day arithmetic on dates correspond exactly to
ordering and arithmetic on day numbers, and `isoformat` keys biject with
dates, so keying the series by day number is faithful. -/

/-- Day number of the Gregorian date `y-m-d` (valid for `y ≥ 1`): the
standard civil-from-date conversion counting days since 0000-03-01. -/
def toDayNumber (y m d : ℕ) : ℕ :=
  let y' := if m ≤ 2 then y - 1 else y
  let era := y' / 400
  let yoe := y' % 400
  let mp := (m + 9) % 12
  let doy := (153 * mp + 2) / 5 + d - 1
  let doe := yoe * 365 + yoe / 4 - yoe / 100 + doy
  era * 146097 + doe

/-- Python `date.weekday()` (Mon=0 .. Sun=6) on day numbers; the offset
is anchored by 1970-01-01 (day number 719468) being a Thursday (3). -/
def pyWeekday (d : ℤ) : ℤ := (d + 2) % 7


/-- `dow_sun0` from `build_svg`: `(d.weekday() + 1) % 7`, Sun=0..Sat=6. -/
def dow_sun0 (d : ℤ) : ℤ := (pyWeekday d + 1) % 7

/-- `start_sunday = start_date - timedelta(days=dow_sun0(start_date))`. -/
def startSundayOf (start_date : ℤ) : ℤ := start_date - dow_sun0 start_date

/-- `end_saturday = end_date + timedelta(days=(6 - dow_sun0(end_date)))`. -/
def endSaturdayOf (end_date : ℤ) : ℤ := end_date + (6 - dow_sun0 end_date)

/-- The consecutive run of `n` dates starting at `s` (helper for
`daterange`). -/
def consRun (s : ℤ) : ℕ → List ℤ
  | 0 => []
  | n + 1 => s :: consRun (s + 1) n

/-- `daterange(start, end)`: every date from `start` to `end` inclusive
(empty when `start > end`). -/
def daterange (start e : ℤ) : List ℤ := consRun start (e + 1 - start).toNat

/-- `all_dates = list(daterange(start_sunday, end_saturday))`. -/
def allDates (start_date end_date : ℤ) : List ℤ :=
  daterange (startSundayOf start_date) (endSaturdayOf end_date)

/-- The week-splitting loop of `build_svg`: consecutive groups of 7
(a trailing group of fewer than 7 days is never appended). -/
def chunkWeeks : List ℤ → List (List ℤ)
  | d1 :: d2 :: d3 :: d4 :: d5 :: d6 :: d7 :: rest =>
    [d1, d2, d3, d4, d5, d6, d7] :: chunkWeeks rest
  | _ => []

/-- The GitHub-ish palette, light to dark. -/
def PALETTE : List String :=
  ["#ebedf0", "#9be9a8", "#40c463", "#30a14e", "#216e39"]

/-- `date_to_seconds.get(date_str, 0.0)` on the day-number-keyed series. -/
def lookupSeconds (series : List (ℤ × ℚ)) (d : ℤ) : ℚ :=
  (series.lookup d).getD 0

/-- The fill colour chosen for the cell of date `d` in `build_svg`:
`"#ffffff"` when `d < start_date or d > end_date`, else
`PALETTE[level_for_seconds(sec, thresholds)]`. -/
def cellFill (series : List (ℤ × ℚ)) (start_date end_date : ℤ)
    (thresholds : ℚ × ℚ × ℚ) (d : ℤ) : String :=
  if d < start_date ∨ end_date < d then "#ffffff"
  else PALETTE.getD (level_for_seconds (lookupSeconds series d) thresholds) ""

/-- The values list the thresholds are computed from in `build_svg`:
`[v for v in date_to_seconds.values() if v > 0]`. -/
def nonzeroValues (series : List (ℤ × ℚ)) : List ℚ :=
  (series.map (fun kv => kv.2)).filter (fun v => 0 < v)


/-! ## Shape predicates for the documented response format -/

/-- The value of key `k` as seen through `dict.get`: the stored value,
or `None` when absent. -/
def fieldOrNull (fs : List (String × Json)) (k : String) : Json :=
  (lookupField fs k).getD .null

/-- The key is absent, `null`, or bound to a string. -/
def strOrAbsent (fs : List (String × Json)) (k : String) : Bool :=
  match lookupField fs k with
  | none => true
  | some .null => true
  | some (.str _) => true
  | some _ => false

/-- The key is absent, `null`, or bound to a number. -/
def numOrAbsent (fs : List (String × Json)) (k : String) : Bool :=
  match lookupField fs k with
  | none => true
  | some .null => true
  | some (.num _) => true
  | some _ => false

/-- The key is absent, `null`, or bound to a non-negative number. -/
def numNonnegOrAbsent (fs : List (String × Json)) (k : String) : Bool :=
  match lookupField fs k with
  | none => true
  | some .null => true
  | some (.num q) => decide (0 ≤ q)
  | some _ => false

/-- A day-entry of the shape documented for the insights endpoint: an
object whose `date` is a string (or absent), whose `range` is an object
with a string `start` (or absent), whose `total` and `total_seconds`
are numbers (or absent), and whose `grand_total` is an object with a
numeric `total_seconds` (or absent). -/
def goodEntry : Json → Bool
  | .obj fs =>
    strOrAbsent fs "date" &&
    (match lookupField fs "range" with
     | none => true
     | some .null => true
     | some (.obj rfs) => strOrAbsent rfs "start"
     | some _ => false) &&
    numOrAbsent fs "total" && numOrAbsent fs "total_seconds" &&
    (match lookupField fs "grand_total" with
     | none => true
     | some .null => true
     | some (.obj gfs) => numOrAbsent gfs "total_seconds"
     | some _ => false)
  | _ => false

/-- A `goodEntry` whose numeric total candidates are all non-negative. -/
def nonnegEntry (j : Json) : Bool :=
  goodEntry j &&
  match j with
  | .obj fs =>
    numNonnegOrAbsent fs "total" && numNonnegOrAbsent fs "total_seconds" &&
    (match lookupField fs "grand_total" with
     | some (.obj gfs) => numNonnegOrAbsent gfs "total_seconds"
     | _ => true)
  | _ => false

/-! ## Model sanity checks -/

/-- The weekday model's anchor: 1970-01-01 is a Thursday (Python
`weekday()` 3). -/
theorem pyWeekday_epoch_anchor : pyWeekday (toDayNumber 1970 1 1) = 3 := by
  decide

/-- Day numbers of the concrete dates used by the grid claims. -/
theorem toDayNumber_concrete :
    toDayNumber 2024 1 1 = 739191 ∧ toDayNumber 2023 12 31 = 739190 := by
  decide

/-- The spec's percentile example: the median of `[10, 20, 30]` is 20,
and `percentile` of a singleton is its sole element for any `p`. -/
theorem percentile_spec_examples (p : ℚ) :
    percentile [10, 20, 30] (1/2) = 20 ∧ percentile [10] p = 10 := by
  constructor
  · simp only [percentile]
    norm_num
  · rfl

/-- A day-entry may take its date from `range.start`, truncated to ten
characters, with the total found under `grand_total`. -/
theorem parse_range_start_example :
    parse_days_insight (.obj [("days", .arr
      [.obj [("range", .obj [("start", .str "2024-02-03T00:00:00Z")]),
             ("grand_total", .obj [("total_seconds", .num 7)])]])]) =
    .ok [(.str "2024-02-03", 7)] := rfl

/-- The spec's dropped-entry example: an entry with only a total and no
resolvable date contributes nothing. -/
theorem parse_dateless_example :
    parse_days_insight (.obj [("days", .arr [.obj [("total", .num 100)]])]) =
    .ok [] := rfl

/-! ## Helper lemmas -/

theorem resolveTotal_total_truthy (fs : List (String × Json))
    (h : pyTruthy (fieldOrNull fs "total") = true) :
    resolveTotal (.obj fs) = .ok (fieldOrNull fs "total") := by
  simp only [fieldOrNull] at h ⊢
  simp [resolveTotal, pyGet, Bind.bind, Except.bind, pure, Except.pure, h]

theorem resolveTotal_seconds_truthy (fs : List (String × Json))
    (h1 : pyTruthy (fieldOrNull fs "total") = false)
    (h2 : pyTruthy (fieldOrNull fs "total_seconds") = true) :
    resolveTotal (.obj fs) = .ok (fieldOrNull fs "total_seconds") := by
  simp only [fieldOrNull] at h1 h2 ⊢
  simp [resolveTotal, pyGet, Bind.bind, Except.bind, pure, Except.pure, h1, h2]

theorem resolveTotal_grand (fs gfs : List (String × Json))
    (h1 : pyTruthy (fieldOrNull fs "total") = false)
    (h2 : pyTruthy (fieldOrNull fs "total_seconds") = false)
    (h3 : fieldOrNull fs "grand_total" = .obj gfs)
    (h4 : pyTruthy (fieldOrNull gfs "total_seconds") = true) :
    resolveTotal (.obj fs) = .ok (fieldOrNull gfs "total_seconds") := by
  simp only [fieldOrNull] at h1 h2 h3 h4 ⊢
  by_cases hg : pyTruthy (Json.obj gfs) = true
  · simp [resolveTotal, pyGet, Bind.bind, Except.bind, pure, Except.pure,
      h1, h2, h3, h4, hg]
  · exfalso
    have hgs : gfs = [] := by
      simpa [pyTruthy, List.isEmpty_iff] using hg
    subst hgs
    simp [lookupField, List.lookup, pyTruthy] at h4

theorem resolveTotal_default_zero (fs : List (String × Json))
    (h1 : pyTruthy (fieldOrNull fs "total") = false)
    (h2 : pyTruthy (fieldOrNull fs "total_seconds") = false)
    (h3 : pyTruthy (fieldOrNull fs "grand_total") = false) :
    resolveTotal (.obj fs) = .ok (.num 0) := by
  simp only [fieldOrNull] at h1 h2 h3 ⊢
  simp only [resolveTotal, pyGet, Bind.bind, Except.bind, h1, h2, h3]
  simp [lookupField, List.lookup, pyTruthy, pure, Except.pure]

theorem resolveTotal_grand_falsy (fs gfs : List (String × Json))
    (h1 : pyTruthy (fieldOrNull fs "total") = false)
    (h2 : pyTruthy (fieldOrNull fs "total_seconds") = false)
    (h3 : fieldOrNull fs "grand_total" = .obj gfs)
    (h4 : pyTruthy (fieldOrNull gfs "total_seconds") = false) :
    resolveTotal (.obj fs) = .ok (.num 0) := by
  simp only [fieldOrNull] at h1 h2 h3 h4 ⊢
  by_cases hg : pyTruthy (Json.obj gfs) = true
  · simp [resolveTotal, pyGet, Bind.bind, Except.bind, pure, Except.pure,
      h1, h2, h3, h4, hg]
  · have hgs : gfs = [] := by
      simpa [pyTruthy, List.isEmpty_iff] using hg
    subst hgs
    rw [Bool.not_eq_true] at hg
    simp only [resolveTotal, pyGet, Bind.bind, Except.bind, h1, h2, h3, hg]
    simp [lookupField, List.lookup, pyTruthy, pure, Except.pure]

theorem strOrAbsent_cases (fs : List (String × Json)) (k : String)
    (h : strOrAbsent fs k = true) :
    fieldOrNull fs k = .null ∨ ∃ s, fieldOrNull fs k = .str s := by
  unfold strOrAbsent at h
  unfold fieldOrNull
  rcases hk : lookupField fs k with _ | v
  · simp
  · rw [hk] at h
    cases v <;> simp_all

theorem numOrAbsent_cases (fs : List (String × Json)) (k : String)
    (h : numOrAbsent fs k = true) :
    fieldOrNull fs k = .null ∨ ∃ q, fieldOrNull fs k = .num q := by
  unfold numOrAbsent at h
  unfold fieldOrNull
  rcases hk : lookupField fs k with _ | v
  · simp
  · rw [hk] at h
    cases v <;> simp_all

theorem numNonnegOrAbsent_cases (fs : List (String × Json)) (k : String)
    (h : numNonnegOrAbsent fs k = true) :
    fieldOrNull fs k = .null ∨ ∃ q, fieldOrNull fs k = .num q ∧ 0 ≤ q := by
  unfold numNonnegOrAbsent at h
  unfold fieldOrNull
  rcases hk : lookupField fs k with _ | v
  · simp
  · rw [hk] at h
    cases v <;> simp_all

/-- On a `goodEntry` object, date resolution always succeeds and yields
`None` or a string. -/
theorem resolveDate_good (fs : List (String × Json))
    (hd : strOrAbsent fs "date" = true)
    (hr : (match lookupField fs "range" with
           | none => true
           | some .null => true
           | some (.obj rfs) => strOrAbsent rfs "start"
           | some _ => false) = true) :
    ∃ d, resolveDate (.obj fs) = .ok d ∧ (d = .null ∨ ∃ s, d = .str s) := by
  by_cases ht : pyTruthy (fieldOrNull fs "date") = true
  · refine ⟨fieldOrNull fs "date", ?_, ?_⟩
    · simp only [fieldOrNull] at ht ⊢
      simp [resolveDate, pyGet, Bind.bind, Except.bind, pure, Except.pure, ht]
    · rcases strOrAbsent_cases fs "date" hd with h0 | ⟨s, hs⟩
      · rw [h0] at ht; simp [pyTruthy] at ht
      · exact .inr ⟨s, hs⟩
  · rw [Bool.not_eq_true] at ht
    rcases hrange : lookupField fs "range" with _ | r
    · refine ⟨fieldOrNull fs "date", ?_, strOrAbsent_cases fs "date" hd⟩
      simp only [fieldOrNull] at ht ⊢
      simp [resolveDate, pyGet, Bind.bind, Except.bind, pure, Except.pure,
        ht, hrange]
    · rw [hrange] at hr
      cases r with
      | null =>
        refine ⟨fieldOrNull fs "date", ?_, strOrAbsent_cases fs "date" hd⟩
        simp only [fieldOrNull] at ht ⊢
        simp [resolveDate, pyGet, Bind.bind, Except.bind, pure, Except.pure,
          ht, hrange]
      | obj rfs =>
        by_cases hs : pyTruthy (fieldOrNull rfs "start") = true
        · rcases strOrAbsent_cases rfs "start" hr with h0 | ⟨s, hsv⟩
          · rw [h0] at hs; simp [pyTruthy] at hs
          · refine ⟨.str (String.mk (s.data.take 10)), ?_, .inr ⟨_, rfl⟩⟩
            rw [hsv] at hs
            simp only [fieldOrNull] at ht hsv ⊢
            simp [resolveDate, pyGet, Bind.bind, Except.bind, pure,
              Except.pure, ht, hrange, hsv, hs, pySliceTen]
        · rw [Bool.not_eq_true] at hs
          refine ⟨fieldOrNull fs "date", ?_, strOrAbsent_cases fs "date" hd⟩
          simp only [fieldOrNull] at ht hs ⊢
          simp [resolveDate, pyGet, Bind.bind, Except.bind, pure,
            Except.pure, ht, hrange, hs]
      | bool b => simp at hr
      | num q => simp at hr
      | str s => simp at hr
      | arr xs => simp at hr

/-- On a `goodEntry` object, the total chain always succeeds with a
numeric value, which is 0 or the value of one of the candidate fields. -/
theorem resolveTotal_good (fs : List (String × Json))
    (hg : goodEntry (.obj fs) = true) :
    ∃ q : ℚ, resolveTotal (.obj fs) = .ok (.num q) ∧
      (q = 0 ∨ fieldOrNull fs "total" = .num q ∨
       fieldOrNull fs "total_seconds" = .num q ∨
       ∃ gfs, fieldOrNull fs "grand_total" = .obj gfs ∧
         fieldOrNull gfs "total_seconds" = .num q) := by
  simp only [goodEntry, Bool.and_eq_true] at hg
  obtain ⟨⟨⟨⟨-, -⟩, h1⟩, h2⟩, h3⟩ := hg
  by_cases ht1 : pyTruthy (fieldOrNull fs "total") = true
  · rcases numOrAbsent_cases fs "total" h1 with ha | ⟨q1, ha⟩
    · rw [ha] at ht1; simp [pyTruthy] at ht1
    · exact ⟨q1, by rw [← ha]; exact resolveTotal_total_truthy fs ht1,
        .inr (.inl ha)⟩
  · have ht1 : pyTruthy (fieldOrNull fs "total") = false := by simpa using ht1
    by_cases ht2 : pyTruthy (fieldOrNull fs "total_seconds") = true
    · rcases numOrAbsent_cases fs "total_seconds" h2 with hb | ⟨q2, hb⟩
      · rw [hb] at ht2; simp [pyTruthy] at ht2
      · exact ⟨q2, by rw [← hb]; exact resolveTotal_seconds_truthy fs ht1 ht2,
          .inr (.inr (.inl hb))⟩
    · have ht2 : pyTruthy (fieldOrNull fs "total_seconds") = false := by
        simpa using ht2
      rcases hgr : lookupField fs "grand_total" with _ | g
      · exact ⟨0, resolveTotal_default_zero fs ht1 ht2
          (by simp [fieldOrNull, hgr, pyTruthy]), .inl rfl⟩
      · rw [hgr] at h3
        cases g with
        | obj gfs =>
          have hgo : fieldOrNull fs "grand_total" = .obj gfs := by
            simp [fieldOrNull, hgr]
          by_cases ht3 : pyTruthy (fieldOrNull gfs "total_seconds") = true
          · rcases numOrAbsent_cases gfs "total_seconds" h3 with hc | ⟨q3, hc⟩
            · rw [hc] at ht3; simp [pyTruthy] at ht3
            · refine ⟨q3, by rw [← hc]; exact
                resolveTotal_grand fs gfs ht1 ht2 hgo ht3, ?_⟩
              exact .inr (.inr (.inr ⟨gfs, hgo, hc⟩))
          · have ht3 : pyTruthy (fieldOrNull gfs "total_seconds") = false := by
              simpa using ht3
            exact ⟨0, resolveTotal_grand_falsy fs gfs ht1 ht2 hgo ht3, .inl rfl⟩
        | null => exact ⟨0, resolveTotal_default_zero fs ht1 ht2
            (by simp [fieldOrNull, hgr, pyTruthy]), .inl rfl⟩
        | bool b => simp at h3
        | num q => simp at h3
        | str s => simp at h3
        | arr xs => simp at h3

theorem mem_setAssoc (m : List (Json × ℚ)) (k : Json) (v : ℚ) :
    ∀ kv ∈ setAssoc m k v, kv ∈ m ∨ kv.2 = v := by
  intro kv hkv
  unfold setAssoc at hkv
  by_cases hany : m.any (fun kv => scalarKeyEq kv.1 k) = true
  · rw [if_pos hany, List.mem_map] at hkv
    obtain ⟨kv', hkv', heq⟩ := hkv
    by_cases hk : scalarKeyEq kv'.1 k = true
    · rw [if_pos hk] at heq
      exact .inr (by rw [← heq])
    · rw [if_neg hk] at heq
      exact .inl (heq ▸ hkv')
  · rw [if_neg hany, List.mem_append] at hkv
    rcases hkv with h | h
    · exact .inl h
    · simp at h
      exact .inr (by rw [h])

/-- On a `goodEntry`, one parser-loop iteration never raises, and any
binding it adds or overwrites carries the resolved total. -/
theorem parseStep_good (fs : List (String × Json))
    (hg : goodEntry (.obj fs) = true) (m : List (Json × ℚ)) :
    ∃ m', parseStep m (.obj fs) = .ok m' ∧
      ∀ kv ∈ m', kv ∈ m ∨ ∃ q : ℚ,
        resolveTotal (.obj fs) = .ok (.num q) ∧ kv.2 = q := by
  have hget := hg
  simp only [goodEntry, Bool.and_eq_true] at hget
  obtain ⟨⟨⟨⟨hd, hr⟩, -⟩, -⟩, -⟩ := hget
  obtain ⟨d, hdate, hshape⟩ := resolveDate_good fs hd hr
  obtain ⟨q, htot, -⟩ := resolveTotal_good fs hg
  by_cases htr : pyTruthy d = true
  · refine ⟨setAssoc m d q, ?_, ?_⟩
    · simp only [parseStep, Bind.bind, Except.bind, hdate, htot, htr, if_true]
      rcases hshape with h0 | ⟨s, hs⟩
      · rw [h0] at htr; simp [pyTruthy] at htr
      · subst hs
        simp [pyFloat, pySetKey, Bind.bind, Except.bind]
    · intro kv hkv
      rcases mem_setAssoc m d q kv hkv with h | h
      · exact .inl h
      · exact .inr ⟨q, htot, h⟩
  · have htr : pyTruthy d = false := by simpa using htr
    refine ⟨m, ?_, fun kv hkv => .inl hkv⟩
    simp [parseStep, Bind.bind, Except.bind, pure, Except.pure, hdate, htot,
      htr]

/-- The parser's fold over a list of `goodEntry` items never raises, and
every binding of the result is inherited or carries some item's resolved
total. -/
theorem foldlM_parseStep_good (items : List Json)
    (h : ∀ i ∈ items, goodEntry i = true) :
    ∀ m, ∃ m', List.foldlM parseStep m items = .ok m' ∧
      ∀ kv ∈ m', kv ∈ m ∨ ∃ i ∈ items, ∃ q : ℚ,
        resolveTotal i = .ok (.num q) ∧ kv.2 = q := by
  induction items with
  | nil => exact fun m => ⟨m, rfl, fun kv hkv => .inl hkv⟩
  | cons i is ih =>
    intro m
    have hi := h i (List.mem_cons_self i is)
    cases i with
    | obj fs =>
      obtain ⟨m1, hstep, hmem1⟩ := parseStep_good fs hi m
      obtain ⟨m', hfold, hmem⟩ :=
        ih (fun j hj => h j (List.mem_cons_of_mem _ hj)) m1
      refine ⟨m', ?_, ?_⟩
      · rw [List.foldlM_cons, hstep]
        simpa [Bind.bind, Except.bind] using hfold
      · intro kv hkv
        rcases hmem kv hkv with hin | ⟨j, hj, q, hq, hv⟩
        · rcases hmem1 kv hin with h' | ⟨q, hq, hv⟩
          · exact .inl h'
          · exact .inr ⟨.obj fs, List.mem_cons_self _ _, q, hq, hv⟩
        · exact .inr ⟨j, List.mem_cons_of_mem _ hj, q, hq, hv⟩
    | null => simp [goodEntry] at hi
    | bool b => simp [goodEntry] at hi
    | num q => simp [goodEntry] at hi
    | str s => simp [goodEntry] at hi
    | arr xs => simp [goodEntry] at hi

theorem fieldOrNull_eq_num (fs : List (String × Json)) (k : String) (q : ℚ)
    (h : fieldOrNull fs k = .num q) : lookupField fs k = some (.num q) := by
  unfold fieldOrNull at h
  rcases hk : lookupField fs k with _ | v
  · rw [hk] at h; simp at h
  · rw [hk] at h; simp at h; rw [h]

theorem fieldOrNull_eq_obj (fs gfs : List (String × Json)) (k : String)
    (h : fieldOrNull fs k = .obj gfs) : lookupField fs k = some (.obj gfs) := by
  unfold fieldOrNull at h
  rcases hk : lookupField fs k with _ | v
  · rw [hk] at h; simp at h
  · rw [hk] at h; simp at h; rw [h]

/-- On a `nonnegEntry`, the resolved total is non-negative. -/
theorem resolveTotal_nonneg (fs : List (String × Json))
    (hn : nonnegEntry (.obj fs) = true) (q : ℚ)
    (hq : resolveTotal (.obj fs) = .ok (.num q)) : 0 ≤ q := by
  have hn' := hn
  simp only [nonnegEntry, Bool.and_eq_true] at hn'
  obtain ⟨hg, ⟨ht, hts⟩, hgt⟩ := hn'
  obtain ⟨q', hq', hdisj⟩ := resolveTotal_good fs hg
  rw [hq] at hq'
  have hqq : q = q' := by
    have := Except.ok.inj hq'
    exact (Json.num.inj this)
  subst hqq
  rcases hdisj with h0 | hfield | hfield | ⟨gfs, hgo, hfield⟩
  · rw [h0]
  · rcases numNonnegOrAbsent_cases fs "total" ht with hnull | ⟨q2, hq2, hge⟩
    · rw [hfield] at hnull; simp at hnull
    · rw [hfield] at hq2
      obtain rfl := (Json.num.inj hq2).symm
      exact hge
  · rcases numNonnegOrAbsent_cases fs "total_seconds" hts with
      hnull | ⟨q2, hq2, hge⟩
    · rw [hfield] at hnull; simp at hnull
    · rw [hfield] at hq2
      obtain rfl := (Json.num.inj hq2).symm
      exact hge
  · rw [fieldOrNull_eq_obj fs gfs "grand_total" hgo] at hgt
    rcases numNonnegOrAbsent_cases gfs "total_seconds" hgt with
      hnull | ⟨q2, hq2, hge⟩
    · rw [hfield] at hnull; simp at hnull
    · rw [hfield] at hq2
      obtain rfl := (Json.num.inj hq2).symm
      exact hge

theorem lookup_some_key_present (fs : List (String × Json)) (k : String)
    (v : Json) (h : List.lookup k fs = some v) :
    fs.any (fun kv => kv.1 == k) = true := by
  induction fs with
  | nil => simp [List.lookup] at h
  | cons kv rest ih =>
    obtain ⟨k1, v1⟩ := kv
    by_cases hk : k = k1
    · subst hk
      simp
    · have hbeq : (k == k1) = false := by simpa using hk
      simp only [List.lookup, hbeq] at h
      simp only [List.any_cons, Bool.or_eq_true]
      exact .inr (ih h)

/-- After a run of attempts that are all stale payloads or retryable
errors, the loop returns the exhaustion fallback applied to the most
recently decoded payload. -/
theorem fetch_stale_run (rng : String) :
    ∀ (attempts : List AttemptResult) (last : Option Json),
      (∀ a ∈ attempts, staleOrRetryable a = true) →
      fetch_json_with_retry rng attempts last =
        fetchExhausted (lastDecoded last attempts) := by
  intro attempts
  induction attempts with
  | nil => intro last _; rfl
  | cons a rest ih =>
    intro last h
    have hrest : ∀ b ∈ rest, staleOrRetryable b = true :=
      fun b hb => h b (List.mem_cons_of_mem _ hb)
    cases a with
    | payload p =>
      have hp := h _ (List.mem_cons_self _ _)
      cases p with
      | obj fs =>
        simp only [staleOrRetryable] at hp
        rcases hdata : lookupField fs "data" with _ | v
        · simp only [hdata] at hp; simp at hp
        · simp only [hdata] at hp
          cases v with
          | obj dfs =>
            rcases hflag : lookupField dfs "is_up_to_date" with _ | f
            · simp only [hflag] at hp; simp at hp
            · simp only [hflag] at hp
              have hf : pyTruthy f = false := by simpa using hp
              have hstep :
                  fetch_json_with_retry rng (.payload (.obj fs) :: rest) last =
                    fetch_json_with_retry rng rest (some (.obj fs)) := by
                simp [fetch_json_with_retry, pyGetD, Bind.bind, Except.bind,
                  hdata, hflag, hf]
              rw [hstep, ih (some (.obj fs)) hrest]
              rfl
          | null => simp at hp
          | bool b => simp at hp
          | num q => simp at hp
          | str s => simp at hp
          | arr xs => simp at hp
      | null => simp [staleOrRetryable] at hp
      | bool b => simp [staleOrRetryable] at hp
      | num q => simp [staleOrRetryable] at hp
      | str s => simp [staleOrRetryable] at hp
      | arr xs => simp [staleOrRetryable] at hp
    | httpError c =>
      have hc := h _ (List.mem_cons_self _ _)
      simp only [staleOrRetryable] at hc
      have hcmem : c ∈ [429, 500, 502, 503, 504] := of_decide_eq_true hc
      have hc402 : ¬(c = 402) := by
        intro hEq; subst hEq; simp at hcmem
      have hstep :
          fetch_json_with_retry rng (.httpError c :: rest) last =
            fetch_json_with_retry rng rest last := by
        simp [fetch_json_with_retry, hc402, hcmem]
      rw [hstep, ih last hrest]
      rfl
    | netError =>
      rw [show fetch_json_with_retry rng (.netError :: rest) last =
            fetch_json_with_retry rng rest last from rfl,
        ih last hrest]
      rfl

theorem lastDecoded_mem :
    ∀ (attempts : List AttemptResult) (last : Option Json) (p : Json),
      lastDecoded last attempts = some p →
      AttemptResult.payload p ∈ attempts ∨ last = some p := by
  intro attempts
  induction attempts with
  | nil => intro last p h; exact .inr h
  | cons a rest ih =>
    intro last p h
    cases a with
    | payload q =>
      rcases ih (some q) p h with hmem | hlast
      · exact .inl (List.mem_cons_of_mem _ hmem)
      · obtain rfl := Option.some.inj hlast
        exact .inl (List.mem_cons_self _ _)
    | httpError c =>
      rcases ih last p h with hmem | hlast
      · exact .inl (List.mem_cons_of_mem _ hmem)
      · exact .inr hlast
    | netError =>
      rcases ih last p h with hmem | hlast
      · exact .inl (List.mem_cons_of_mem _ hmem)
      · exact .inr hlast

/-- The exhaustion fallback on a stale payload returns that payload's
`"data"` value. -/
theorem fetchExhausted_stale (p : Json)
    (hp : staleOrRetryable (.payload p) = true) :
    ∃ d, pyIndex p "data" = .ok d ∧ fetchExhausted (some p) = .ok d := by
  cases p with
  | obj fs =>
    simp only [staleOrRetryable] at hp
    rcases hdata : lookupField fs "data" with _ | v
    · rw [hdata] at hp; simp at hp
    · have hne : fs ≠ [] := by
        intro hEq; subst hEq; simp [lookupField] at hdata
      have hkey : fs.any (fun kv => kv.1 == "data") = true :=
        lookup_some_key_present fs "data" v hdata
      refine ⟨v, ?_, ?_⟩
      · simp [pyIndex, hdata]
      · simp [fetchExhausted, pyTruthy, pyContains, pyIndex, hdata, hkey,
          Bind.bind, Except.bind, List.isEmpty_iff, hne]
  | null => simp [staleOrRetryable] at hp
  | bool b => simp [staleOrRetryable] at hp
  | num q => simp [staleOrRetryable] at hp
  | str s => simp [staleOrRetryable] at hp
  | arr xs => simp [staleOrRetryable] at hp

theorem percentile_eq_interpAt (l : List ℚ) (p : ℚ) (h2 : 2 ≤ l.length) :
    percentile l p = interpAt l (((l.length : ℚ) - 1) * p) := by
  have h0 : l.isEmpty = false := by
    cases l with
    | nil => simp at h2
    | cons a t => rfl
  have h1 : ¬(l.length = 1) := by omega
  unfold percentile interpAt
  rw [h0]
  simp only [Bool.false_eq_true, if_false, h1]
  set idx : ℚ := ((l.length : ℚ) - 1) * p with hidx
  by_cases hfl : (⌊idx⌋ : ℤ) = ⌈idx⌉
  · rw [if_pos hfl, ← hfl]
    ring
  · rw [if_neg hfl]

theorem getD_mono_of_sorted (l : List ℚ) (hs : l.Sorted (· ≤ ·))
    (i j : ℕ) (hij : i ≤ j) (hj : j < l.length) :
    l.getD i 0 ≤ l.getD j 0 := by
  have hi : i < l.length := lt_of_le_of_lt hij hj
  rw [List.getD_eq_getElem l 0 hi, List.getD_eq_getElem l 0 hj]
  have := hs.rel_get_of_le (a := ⟨i, hi⟩) (b := ⟨j, hj⟩) (Fin.mk_le_mk.mpr hij)
  simpa [List.get_eq_getElem] using this

theorem interpAt_bounds (l : List ℚ) (hs : l.Sorted (· ≤ ·)) (x : ℚ)
    (hx0 : 0 ≤ x) (hxtop : x ≤ (l.length : ℚ) - 1) :
    l.getD ⌊x⌋.toNat 0 ≤ interpAt l x ∧
      interpAt l x ≤ l.getD ⌈x⌉.toNat 0 := by
  have hceil_le : ⌈x⌉ ≤ (l.length : ℤ) - 1 := by
    have hc1 := Int.ceil_le_ceil hxtop
    have hc : (⌈((l.length : ℚ) - 1)⌉ : ℤ) = (l.length : ℤ) - 1 := by
      have hcast : ((l.length : ℚ) - 1) = (((l.length : ℤ) - 1 : ℤ) : ℚ) := by
        push_cast; ring
      rw [hcast, Int.ceil_intCast]
    omega
  have hfloor0 : 0 ≤ ⌊x⌋ := Int.floor_nonneg.mpr hx0
  have hflle : ⌊x⌋ ≤ ⌈x⌉ := Int.floor_le_ceil x
  have hiltn : ⌈x⌉.toNat < l.length := by omega
  have hjle : ⌊x⌋.toNat ≤ ⌈x⌉.toNat := by omega
  have hV : l.getD ⌊x⌋.toNat 0 ≤ l.getD ⌈x⌉.toNat 0 :=
    getD_mono_of_sorted l hs _ _ hjle hiltn
  have hf0 : 0 ≤ x - (⌊x⌋ : ℚ) := sub_nonneg.mpr (Int.floor_le x)
  have hf1 : x - (⌊x⌋ : ℚ) ≤ 1 := by
    have := Int.lt_floor_add_one x
    push_cast at this
    linarith
  constructor
  · unfold interpAt
    nlinarith [mul_nonneg hf0 (sub_nonneg.mpr hV)]
  · unfold interpAt
    nlinarith [mul_nonneg (sub_nonneg.mpr hf1) (sub_nonneg.mpr hV)]

theorem interpAt_mono (l : List ℚ) (hs : l.Sorted (· ≤ ·)) (x y : ℚ)
    (hx0 : 0 ≤ x) (hxy : x ≤ y) (hytop : y ≤ (l.length : ℚ) - 1) :
    interpAt l x ≤ interpAt l y := by
  have hy0 : 0 ≤ y := hx0.trans hxy
  have hxtop : x ≤ (l.length : ℚ) - 1 := hxy.trans hytop
  have hyfl_le : ⌊y⌋ ≤ (l.length : ℤ) - 1 := by
    have hf1 := Int.floor_le_floor hytop
    have hc : (⌊((l.length : ℚ) - 1)⌋ : ℤ) = (l.length : ℤ) - 1 := by
      have hcast : ((l.length : ℚ) - 1) = (((l.length : ℤ) - 1 : ℤ) : ℚ) := by
        push_cast; ring
      rw [hcast, Int.floor_intCast]
    omega
  rcases eq_or_lt_of_le (Int.floor_le_floor hxy) with hfl | hfl
  · by_cases hfx : x - (⌊x⌋ : ℚ) = 0
    · have hxeq : interpAt l x = l.getD ⌊x⌋.toNat 0 := by
        unfold interpAt
        rw [hfx]
        ring
      rw [hxeq, hfl]
      exact (interpAt_bounds l hs y hy0 hytop).1
    · have hfx0 : 0 < x - (⌊x⌋ : ℚ) :=
        lt_of_le_of_ne (sub_nonneg.mpr (Int.floor_le x)) (Ne.symm hfx)
      have hcx : ⌈x⌉ = ⌊x⌋ + 1 := by
        have h1 : (⌊x⌋ : ℚ) < x := by linarith
        have h2 : ⌊x⌋ < ⌈x⌉ := by
          have h3 := Int.le_ceil x
          exact_mod_cast lt_of_lt_of_le h1 h3
        have h3 := Int.ceil_le_floor_add_one x
        omega
      have hfy0 : 0 < y - (⌊y⌋ : ℚ) := by
        rw [← hfl]
        linarith
      have hcy : ⌈y⌉ = ⌊y⌋ + 1 := by
        have h1 : (⌊y⌋ : ℚ) < y := by linarith
        have h2 : ⌊y⌋ < ⌈y⌉ := by
          have h3 := Int.le_ceil y
          exact_mod_cast lt_of_lt_of_le h1 h3
        have h3 := Int.ceil_le_floor_add_one y
        omega
      have hfloor0 : 0 ≤ ⌊x⌋ := Int.floor_nonneg.mpr hx0
      have hceily_le : ⌈y⌉ ≤ (l.length : ℤ) - 1 := by
        have hc1 := Int.ceil_le_ceil hytop
        have hc : (⌈((l.length : ℚ) - 1)⌉ : ℤ) = (l.length : ℤ) - 1 := by
          have hcast : ((l.length : ℚ) - 1) = (((l.length : ℤ) - 1 : ℤ) : ℚ) := by
            push_cast; ring
          rw [hcast, Int.ceil_intCast]
        omega
      have hl1n : (⌊x⌋ + 1).toNat < l.length := by
        rw [← hfl] at hcy
        omega
      have hV : l.getD ⌊x⌋.toNat 0 ≤ l.getD (⌊x⌋ + 1).toNat 0 :=
        getD_mono_of_sorted l hs _ _ (by omega) hl1n
      have hfxy : x - (⌊x⌋ : ℚ) ≤ y - (⌊x⌋ : ℚ) := by linarith
      unfold interpAt
      rw [hcx, hcy, ← hfl]
      nlinarith [mul_nonneg (sub_nonneg.mpr hfxy) (sub_nonneg.mpr hV)]
  · have hceilx_le : ⌈x⌉ ≤ ⌊y⌋ := by
      have := Int.ceil_le_floor_add_one x
      omega
    have hfloor0 : 0 ≤ ⌊x⌋ := Int.floor_nonneg.mpr hx0
    have hylt : ⌊y⌋.toNat < l.length := by omega
    calc interpAt l x ≤ l.getD ⌈x⌉.toNat 0 :=
          (interpAt_bounds l hs x hx0 hxtop).2
      _ ≤ l.getD ⌊y⌋.toNat 0 :=
          getD_mono_of_sorted l hs _ _ (by omega) hylt
      _ ≤ interpAt l y := (interpAt_bounds l hs y hy0 hytop).1

theorem percentile_mono (l : List ℚ) (hs : l.Sorted (· ≤ ·)) (p1 p2 : ℚ)
    (hp0 : 0 ≤ p1) (hp12 : p1 ≤ p2) (hp1 : p2 ≤ 1) :
    percentile l p1 ≤ percentile l p2 := by
  by_cases hemp : l.isEmpty = true
  · unfold percentile
    rw [hemp]
    simp
  by_cases hone : l.length = 1
  · unfold percentile
    rw [hone]
    simp [hemp]
  · have h2 : 2 ≤ l.length := by
      cases l with
      | nil => simp at hemp
      | cons a t =>
        rcases t with _ | ⟨b, t2⟩
        · simp at hone
        · simp only [List.length_cons]
          omega
    have hn0 : (0 : ℚ) ≤ (l.length : ℚ) - 1 := by
      have : (2 : ℚ) ≤ (l.length : ℚ) := by exact_mod_cast h2
      linarith
    rw [percentile_eq_interpAt l p1 h2, percentile_eq_interpAt l p2 h2]
    apply interpAt_mono l hs
    · exact mul_nonneg hn0 hp0
    · exact mul_le_mul_of_nonneg_left hp12 hn0
    · exact mul_le_of_le_one_right hn0 hp1

theorem level_for_seconds_mono (t : ℚ × ℚ × ℚ) (a b : ℚ) (hab : a ≤ b) :
    level_for_seconds a t ≤ level_for_seconds b t := by
  obtain ⟨q25, q50, q75⟩ := t
  unfold level_for_seconds
  split_ifs <;> first | omega | linarith

theorem thresholds_sorted (vals : List ℚ) :
    (make_thresholds vals).1 ≤ (make_thresholds vals).2.1 ∧
    (make_thresholds vals).2.1 ≤ (make_thresholds vals).2.2 := by
  have hs : (List.insertionSort (· ≤ ·) vals).Sorted (· ≤ ·) :=
    List.sorted_insertionSort (· ≤ ·) vals
  unfold make_thresholds
  exact ⟨percentile_mono _ hs (1/4) (1/2) (by norm_num) (by norm_num)
      (by norm_num),
    percentile_mono _ hs (1/2) (3/4) (by norm_num) (by norm_num)
      (by norm_num)⟩

/-! ## Claims -/

theorem consRun_succ (s : ℤ) (n : ℕ) : consRun s (n + 1) = s :: consRun (s + 1) n := rfl

theorem consRun_length (s : ℤ) (n : ℕ) : (consRun s n).length = n := by
  induction n generalizing s with
  | zero => rfl
  | succ n ih => simp [consRun, ih]

theorem consRun_seven (t : ℤ) : consRun t 7 = [t, t+1, t+2, t+3, t+4, t+5, t+6] := by
  simp only [consRun]
  simp only [show t+1+1 = t+2 from by ring, show t+2+1 = t+3 from by ring,
    show t+3+1 = t+4 from by ring, show t+4+1 = t+5 from by ring,
    show t+5+1 = t+6 from by ring]

theorem consRun_add_seven (s : ℤ) (m : ℕ) :
    consRun s (m + 7) =
      s :: (s+1) :: (s+2) :: (s+3) :: (s+4) :: (s+5) :: (s+6) ::
        consRun (s+7) m := by
  rw [show m + 7 = m+6+1 from rfl, consRun_succ,
      show m + 6 = m+5+1 from rfl, consRun_succ,
      show m + 5 = m+4+1 from rfl, consRun_succ,
      show m + 4 = m+3+1 from rfl, consRun_succ,
      show m + 3 = m+2+1 from rfl, consRun_succ,
      show m + 2 = m+1+1 from rfl, consRun_succ,
      consRun_succ]
  simp only [show s+1+1 = s+2 from by ring, show s+2+1 = s+3 from by ring,
    show s+3+1 = s+4 from by ring, show s+4+1 = s+5 from by ring,
    show s+5+1 = s+6 from by ring, show s+6+1 = s+7 from by ring]

theorem chunkWeeks_consRun (k : ℕ) : ∀ s : ℤ,
    (chunkWeeks (consRun s (7*k))).join = consRun s (7*k) ∧
    ∀ w ∈ chunkWeeks (consRun s (7*k)),
      ∃ j : ℕ, j < k ∧ w = consRun (s + 7*j) 7 := by
  induction k with
  | zero => exact fun s => ⟨rfl, fun w hw => by simp [consRun, chunkWeeks] at hw⟩
  | succ k ih =>
    intro s
    rw [show 7*(k+1) = 7*k + 7 from by ring, consRun_add_seven]
    rw [show chunkWeeks (s :: (s+1) :: (s+2) :: (s+3) :: (s+4) :: (s+5) ::
        (s+6) :: consRun (s+7) (7*k)) =
      [s, s+1, s+2, s+3, s+4, s+5, s+6] :: chunkWeeks (consRun (s+7) (7*k))
      from rfl]
  
    constructor
    · show [s, s+1, s+2, s+3, s+4, s+5, s+6] ++
        (chunkWeeks (consRun (s+7) (7*k))).join = _
      rw [(ih (s+7)).1]
      rfl
    · intro w hw
      rcases List.mem_cons.mp hw with rfl | hmem
      · refine ⟨0, by omega, ?_⟩
        rw [consRun_seven]
        norm_num
      · obtain ⟨j, hj, hwj⟩ := (ih (s+7)).2 w hmem
        refine ⟨j+1, by omega, ?_⟩
        rw [hwj]
        congr 1
        push_cast
        ring

theorem allDates_eq_consRun (start_date end_date : ℤ) :
    allDates start_date end_date =
      consRun (startSundayOf start_date)
        (endSaturdayOf end_date + 1 - startSundayOf start_date).toNat := rfl

theorem allDates_length_exists (start_date end_date : ℤ) :
    ∃ k : ℕ, (allDates start_date end_date).length = 7 * k := by
  rw [allDates_eq_consRun, consRun_length]
  have h7 : (endSaturdayOf end_date + 1 - startSundayOf start_date).toNat % 7
      = 0 := by
    unfold endSaturdayOf startSundayOf dow_sun0 pyWeekday
    omega
  exact ⟨(endSaturdayOf end_date + 1 - startSundayOf start_date).toNat / 7,
    by omega⟩

/-- Claim C7 (confirmed): the grid spans from the first Sunday on or
before `start` to the last Saturday on or after `end` (for
`start = 2024-01-01`, a Monday, the computed start Sunday is
2023-12-31), the total number of enumerated dates is a multiple of 7,
and the dates partition into consecutive weeks of exactly 7 consecutive
days each, Sunday-indexed 0-6. -/
theorem grid_alignment (start_date end_date : ℤ) :
    (startSundayOf start_date ≤ start_date ∧
     start_date - startSundayOf start_date < 7 ∧
     dow_sun0 (startSundayOf start_date) = 0) ∧
    (end_date ≤ endSaturdayOf end_date ∧
     endSaturdayOf end_date - end_date < 7 ∧
     dow_sun0 (endSaturdayOf end_date) = 6) ∧
    (allDates start_date end_date).length % 7 = 0 ∧
    (chunkWeeks (allDates start_date end_date)).join =
      allDates start_date end_date ∧
    (∀ w ∈ chunkWeeks (allDates start_date end_date),
      w.length = 7 ∧ ∃ t, dow_sun0 t = 0 ∧
        w = [t, t+1, t+2, t+3, t+4, t+5, t+6] ∧
        ∀ i : ℕ, i < 7 → dow_sun0 (w.getD i 0) = (i : ℤ)) ∧
    startSundayOf (toDayNumber 2024 1 1 : ℤ) =
      (toDayNumber 2023 12 31 : ℤ) := by
  obtain ⟨k, hk⟩ := allDates_length_exists start_date end_date
  have hconsq : allDates start_date end_date =
      consRun (startSundayOf start_date) (7 * k) := by
    rw [allDates_eq_consRun]
    congr 1
    rw [allDates_eq_consRun, consRun_length] at hk
    omega
  have hsun : dow_sun0 (startSundayOf start_date) = 0 := by
    unfold startSundayOf dow_sun0 pyWeekday
    omega
  refine ⟨⟨?_, ?_, hsun⟩, ⟨?_, ?_, ?_⟩, ?_, ?_, ?_, ?_⟩
  · unfold startSundayOf dow_sun0 pyWeekday; omega
  · unfold startSundayOf dow_sun0 pyWeekday; omega
  · unfold endSaturdayOf dow_sun0 pyWeekday; omega
  · unfold endSaturdayOf dow_sun0 pyWeekday; omega
  · unfold endSaturdayOf dow_sun0 pyWeekday; omega
  · rw [hk]; omega
  · rw [hconsq]
    exact (chunkWeeks_consRun k (startSundayOf start_date)).1
  · intro w hw
    rw [hconsq] at hw
    obtain ⟨j, hj, hwj⟩ :=
      (chunkWeeks_consRun k (startSundayOf start_date)).2 w hw
    have hdow : dow_sun0 (startSundayOf start_date + 7 * (j : ℤ)) = 0 := by
      unfold dow_sun0 pyWeekday at hsun ⊢
      omega
    refine ⟨by rw [hwj, consRun_length], ⟨startSundayOf start_date + 7 * j,
      hdow, by rw [hwj, consRun_seven], ?_⟩⟩
    intro i hi
    rw [hwj, consRun_seven]
    set t := startSundayOf start_date + 7 * (j : ℤ) with ht
    interval_cases i <;>
      simp only [List.getD_cons_zero, List.getD_cons_succ] <;>
      (unfold dow_sun0 pyWeekday at hdow ⊢; push_cast; omega)
  · unfold startSundayOf dow_sun0 pyWeekday
    norm_num [toDayNumber]


/-- Claim C7 witness: the grid facts at the concrete window
2024-01-01 (day 739191, a Monday) .. 2024-01-06 (day 739196, a
Saturday): its single week is the run of seven consecutive days from
Sunday 2023-12-31 (day 739190), Sunday-indexed. -/
theorem grid_alignment_witness :
    startSundayOf 739191 ≤ 739191 ∧
    dow_sun0 (startSundayOf 739191) = 0 ∧
    ((739190 : ℤ) :: 739191 :: 739192 :: 739193 :: 739194 :: 739195 ::
        739196 :: []).length = 7 ∧
    (∃ t, dow_sun0 t = 0 ∧
      ((739190 : ℤ) :: 739191 :: 739192 :: 739193 :: 739194 :: 739195 ::
          739196 :: []) = [t, t+1, t+2, t+3, t+4, t+5, t+6] ∧
      ∀ i : ℕ, i < 7 →
        dow_sun0 (((739190 : ℤ) :: 739191 :: 739192 :: 739193 :: 739194 ::
          739195 :: 739196 :: []).getD i 0) = (i : ℤ)) ∧
    startSundayOf (toDayNumber 2024 1 1 : ℤ) =
      (toDayNumber 2023 12 31 : ℤ) :=
  ⟨(grid_alignment 739191 739196).1.1,
   (grid_alignment 739191 739196).1.2.2,
   ((grid_alignment 739191 739196).2.2.2.2.1
      ((739190 : ℤ) :: 739191 :: 739192 :: 739193 :: 739194 :: 739195 ::
        739196 :: []) (by decide)).1,
   ((grid_alignment 739191 739196).2.2.2.2.1
      ((739190 : ℤ) :: 739191 :: 739192 :: 739193 :: 739194 :: 739195 ::
        739196 :: []) (by decide)).2,
   (grid_alignment 739191 739196).2.2.2.2.2⟩


/-- Claim C10 (confirmed): the neutral blank fill `"#ffffff"` used for
out-of-window padding days is distinct from all five palette colours, so
a padding day is always distinguishable from an in-window level-0 day,
whose fill is the palette's lightest colour `"#ebedf0"`. -/
theorem blank_fill_distinct_from_palette :
    "#ffffff" ∉ PALETTE ∧ PALETTE.getD 0 "" = "#ebedf0" := by
  constructor
  · decide
  · rfl

/-- Claim C1 counterexample: an entry whose `total` field is present
with value 0 does not yield 0.0 — Python's `or` chain skips the falsy 0
and the later `total_seconds` candidate (999) wins. -/
theorem total_zero_does_not_win :
    parse_days_insight (.obj [("days", .arr
      [.obj [("date", .str "2024-01-01"), ("total", .num 0),
             ("total_seconds", .num 999)]])]) =
      .ok [(.str "2024-01-01", 999)] ∧ (999 : ℚ) ≠ 0 :=
  ⟨rfl, by norm_num⟩

/-- Claim C1 amended: the Parser resolves the numeric total by priority
order with Python truthiness — the first *truthy* (present and non-zero,
non-empty) candidate among `total`, `total_seconds` and
`grand_total.total_seconds` wins, and if all candidates are absent or
falsy the total is 0; in particular a `total` field holding 50 beats a
later `total_seconds` of 999. -/
theorem total_priority_truthiness (fs gfs : List (String × Json)) :
    (pyTruthy (fieldOrNull fs "total") = true →
      resolveTotal (.obj fs) = .ok (fieldOrNull fs "total")) ∧
    (pyTruthy (fieldOrNull fs "total") = false →
     pyTruthy (fieldOrNull fs "total_seconds") = true →
      resolveTotal (.obj fs) = .ok (fieldOrNull fs "total_seconds")) ∧
    (pyTruthy (fieldOrNull fs "total") = false →
     pyTruthy (fieldOrNull fs "total_seconds") = false →
     fieldOrNull fs "grand_total" = .obj gfs →
     pyTruthy (fieldOrNull gfs "total_seconds") = true →
      resolveTotal (.obj fs) = .ok (fieldOrNull gfs "total_seconds")) ∧
    (pyTruthy (fieldOrNull fs "total") = false →
     pyTruthy (fieldOrNull fs "total_seconds") = false →
     pyTruthy (fieldOrNull fs "grand_total") = false →
      resolveTotal (.obj fs) = .ok (.num 0)) ∧
    parse_days_insight (.obj [("days", .arr
      [.obj [("date", .str "2024-01-01"), ("total", .num 50),
             ("total_seconds", .num 999)]])]) =
      .ok [(.str "2024-01-01", 50)] :=
  ⟨resolveTotal_total_truthy fs,
   resolveTotal_seconds_truthy fs,
   fun h1 h2 h3 h4 => resolveTotal_grand fs gfs h1 h2 h3 h4,
   resolveTotal_default_zero fs,
   rfl⟩

/-- Claim C1 witness: the amended priority rules evaluated on concrete
entries — a truthy `total` of 50 wins over `total_seconds` 999, a falsy
`total` of 0 loses to `total_seconds` 999, and with all candidates
absent the total defaults to 0. -/
theorem total_priority_truthiness_witness :
    resolveTotal (.obj [("total", .num 50), ("total_seconds", .num 999)]) =
      .ok (.num 50) ∧
    resolveTotal (.obj [("total", .num 0), ("total_seconds", .num 999)]) =
      .ok (.num 999) ∧
    resolveTotal (.obj [("date", .str "2024-01-01")]) = .ok (.num 0) :=
  ⟨(total_priority_truthiness [("total", .num 50), ("total_seconds", .num 999)] []).1
      (by decide),
   (total_priority_truthiness [("total", .num 0), ("total_seconds", .num 999)] []).2.1
      (by decide) (by decide),
   (total_priority_truthiness [("date", .str "2024-01-01")] []).2.2.2.1
      (by decide) (by decide) (by decide)⟩

/-- Claim C2 counterexample: not every malformed entry is absorbed — a
day-entry that is not an object (here the number 42) makes the parse
raise an `AttributeError` instead of being skipped. -/
theorem non_object_entry_raises :
    parse_days_insight (.obj [("days", .arr [.num 42])]) =
      .error "AttributeError: get" := rfl

/-- Claim C2 amended: for every raw response whose day-entries all have
the documented shape (`date` a string or absent, `range` an object with
a string `start` or absent, `total`/`total_seconds` numbers or absent,
`grand_total` an object with numeric `total_seconds` or absent), the
Parser returns an ActivitySeries without raising; an entry without a
truthy resolved date is dropped silently, and when all numeric
candidates are absent the total defaults to zero.  (An entry of
arbitrary shape can still raise, e.g. a non-object entry.) -/
theorem parser_absorbs_documented_shapes :
    (∀ items : List Json, (∀ i ∈ items, goodEntry i = true) →
      ∃ m, parse_days_insight (.obj [("days", .arr items)]) = .ok m) ∧
    (∀ (m : List (Json × ℚ)) (i d t : Json),
      resolveDate i = .ok d → pyTruthy d = false → resolveTotal i = .ok t →
      parseStep m i = .ok m) ∧
    (∀ fs : List (String × Json),
      lookupField fs "total" = none → lookupField fs "total_seconds" = none →
      lookupField fs "grand_total" = none →
      resolveTotal (.obj fs) = .ok (.num 0)) := by
  refine ⟨?_, ?_, ?_⟩
  · intro items h
    obtain ⟨m, hm, -⟩ := foldlM_parseStep_good items h []
    refine ⟨m, ?_⟩
    simpa [parse_days_insight, pyGetD, pyIter, lookupField, Bind.bind,
      Except.bind] using hm
  · intro m i d t hd htr ht
    simp [parseStep, Bind.bind, Except.bind, pure, Except.pure, hd, ht, htr]
  · intro fs h1 h2 h3
    exact resolveTotal_default_zero fs
      (by simp [fieldOrNull, h1, pyTruthy])
      (by simp [fieldOrNull, h2, pyTruthy])
      (by simp [fieldOrNull, h3, pyTruthy])

/-- Claim C2 witness: the amended guarantees exercised on concrete
inputs — a two-entry documented-shape response parses successfully, a
dateless entry is dropped, and an entry with no numeric candidates
resolves to total 0. -/
theorem parser_absorbs_documented_shapes_witness :
    (∃ m, parse_days_insight (.obj [("days", .arr
        [.obj [("date", .str "2024-01-01"), ("total", .num 50)],
         .obj [("total_seconds", .num 3)]])]) = .ok m) ∧
    parseStep [] (.obj [("total_seconds", .num 3)]) = .ok [] ∧
    resolveTotal (.obj [("date", .str "2024-01-01")]) = .ok (.num 0) :=
  ⟨parser_absorbs_documented_shapes.1
      [.obj [("date", .str "2024-01-01"), ("total", .num 50)],
       .obj [("total_seconds", .num 3)]] (by decide),
   parser_absorbs_documented_shapes.2.1 [] (.obj [("total_seconds", .num 3)])
      .null (.num 3) rfl rfl rfl,
   parser_absorbs_documented_shapes.2.2 [("date", .str "2024-01-01")]
      rfl rfl rfl⟩

/-- Claim C9 counterexample: a parsed value can be negative — an entry
with `total` equal to −5 produces −5.0 in the series, so the values are
not always non-negative. -/
theorem parser_value_can_be_negative :
    parse_days_insight (.obj [("days", .arr
      [.obj [("date", .str "2024-01-01"), ("total", .num (-5))]])]) =
      .ok [(.str "2024-01-01", -5)] ∧ ¬(0 ≤ (-5 : ℚ)) :=
  ⟨rfl, by norm_num⟩

/-- Claim C9 amended: when every day-entry has the documented shape and
all its numeric total candidates are non-negative, the parse succeeds
and every `total_seconds` value of the resulting ActivitySeries is
non-negative (absent fields defaulting to zero). -/
theorem parser_values_nonneg (items : List Json)
    (h : ∀ i ∈ items, nonnegEntry i = true) :
    ∃ m, parse_days_insight (.obj [("days", .arr items)]) = .ok m ∧
      ∀ kv ∈ m, 0 ≤ kv.2 := by
  have hgood : ∀ i ∈ items, goodEntry i = true := by
    intro i hi
    have := h i hi
    simp only [nonnegEntry, Bool.and_eq_true] at this
    exact this.1
  obtain ⟨m, hm, hmem⟩ := foldlM_parseStep_good items hgood []
  refine ⟨m, ?_, ?_⟩
  · simpa [parse_days_insight, pyGetD, pyIter, lookupField, Bind.bind,
      Except.bind] using hm
  · intro kv hkv
    rcases hmem kv hkv with hin | ⟨i, hi, q, hq, hv⟩
    · simp at hin
    · cases i with
      | obj fs =>
        rw [hv]
        exact resolveTotal_nonneg fs (h _ hi) q hq
      | null => simpa [nonnegEntry] using h _ hi
      | bool b => simpa [nonnegEntry] using h _ hi
      | num q' => simpa [nonnegEntry] using h _ hi
      | str s => simpa [nonnegEntry] using h _ hi
      | arr xs => simpa [nonnegEntry] using h _ hi

theorem lookup_some_mem_series (series : List (ℤ × ℚ)) (d : ℤ) (q : ℚ)
    (h : List.lookup d series = some q) : (d, q) ∈ series := by
  induction series with
  | nil => simp [List.lookup] at h
  | cons kv rest ih =>
    obtain ⟨k1, v1⟩ := kv
    by_cases hk : d = k1
    · subst hk
      simp only [List.lookup, beq_self_eq_true] at h
      obtain rfl := Option.some.inj h
      exact List.mem_cons_self _ _
    · have hbeq : (d == k1) = false := by simpa using hk
      simp only [List.lookup, hbeq] at h
      exact List.mem_cons_of_mem _ (ih h)

/-- Claim C4 (confirmed): when the series contains no strictly-positive
seconds value (empty or all-zero series), the quantile thresholds
computed by `build_svg` are all zero and every rendered day's seconds
value maps to level 0. -/
theorem degenerate_series_all_level_zero (series : List (ℤ × ℚ))
    (h : ∀ kv ∈ series, kv.2 ≤ 0) :
    make_thresholds (nonzeroValues series) = (0, 0, 0) ∧
    ∀ d : ℤ, level_for_seconds (lookupSeconds series d)
      (make_thresholds (nonzeroValues series)) = 0 := by
  have hempty : nonzeroValues series = [] := by
    rw [nonzeroValues, List.filter_eq_nil_iff]
    intro v hv
    rw [List.mem_map] at hv
    obtain ⟨kv, hkv, rfl⟩ := hv
    simpa using not_lt.mpr (h kv hkv)
  rw [hempty]
  refine ⟨rfl, fun d => ?_⟩
  have hle : lookupSeconds series d ≤ 0 := by
    unfold lookupSeconds
    rcases hl : List.lookup d series with _ | q
    · simp
    · simpa using h _ (lookup_some_mem_series series d q hl)
  simp [level_for_seconds, hle, make_thresholds, percentile]

/-- Claim C4 witness: the degenerate guarantee on the concrete all-zero
two-day series — thresholds collapse to zero and both stored dates (and
a missing date) level to 0. -/
theorem degenerate_series_all_level_zero_witness :
    make_thresholds (nonzeroValues [(739191, 0), (739192, 0)]) =
      (0, 0, 0) ∧
    level_for_seconds (lookupSeconds [(739191, 0), (739192, 0)] 739191)
      (make_thresholds (nonzeroValues [(739191, 0), (739192, 0)])) = 0 ∧
    level_for_seconds (lookupSeconds [(739191, 0), (739192, 0)] 739300)
      (make_thresholds (nonzeroValues [(739191, 0), (739192, 0)])) = 0 :=
  ⟨(degenerate_series_all_level_zero [(739191, 0), (739192, 0)]
      (by decide)).1,
   (degenerate_series_all_level_zero [(739191, 0), (739192, 0)]
      (by decide)).2 739191,
   (degenerate_series_all_level_zero [(739191, 0), (739192, 0)]
      (by decide)).2 739300⟩

/-- Claim C5 (confirmed): the Leveler is monotone — for all `a ≤ b`
evaluated against the thresholds computed from the same series,
`level(a) ≤ level(b)` — and the computed thresholds are non-decreasing
(q25 ≤ q50 ≤ q75) for every input value list. -/
theorem leveler_monotone (vals : List ℚ) (a b : ℚ) (hab : a ≤ b) :
    level_for_seconds a (make_thresholds vals) ≤
      level_for_seconds b (make_thresholds vals) ∧
    (make_thresholds vals).1 ≤ (make_thresholds vals).2.1 ∧
    (make_thresholds vals).2.1 ≤ (make_thresholds vals).2.2 :=
  ⟨level_for_seconds_mono _ a b hab, thresholds_sorted vals⟩

/-- Claim C5 witness: monotonicity and sorted thresholds on the concrete
series `[30, 10, 20]` with seconds values 1 ≤ 2. -/
theorem leveler_monotone_witness :
    level_for_seconds 1 (make_thresholds [30, 10, 20]) ≤
      level_for_seconds 2 (make_thresholds [30, 10, 20]) ∧
    (make_thresholds [30, 10, 20]).1 ≤ (make_thresholds [30, 10, 20]).2.1 ∧
    (make_thresholds [30, 10, 20]).2.1 ≤
      (make_thresholds [30, 10, 20]).2.2 :=
  leveler_monotone [30, 10, 20] 1 2 (by norm_num)

/-- Claim C6 (confirmed): every padding day (`d < start` or `d > end`)
is drawn with the neutral blank fill `"#ffffff"` whatever the series
holds for it, every in-window day is filled with the palette colour of
its computed level, and every seconds value receives a well-defined
intensity level in 0..4. -/
theorem padding_days_blank (series : List (ℤ × ℚ))
    (start_date end_date : ℤ) (thresholds : ℚ × ℚ × ℚ) (d : ℤ) :
    ((d < start_date ∨ end_date < d) →
      cellFill series start_date end_date thresholds d = "#ffffff") ∧
    (¬(d < start_date ∨ end_date < d) →
      cellFill series start_date end_date thresholds d =
        PALETTE.getD
          (level_for_seconds (lookupSeconds series d) thresholds) "") ∧
    (∀ sec : ℚ, level_for_seconds sec thresholds ∈ [0, 1, 2, 3, 4] ∧
      level_for_seconds sec thresholds < PALETTE.length) := by
  refine ⟨?_, ?_, ?_⟩
  · intro h
    simp [cellFill, h]
  · intro h
    simp [cellFill, h]
  · intro sec
    constructor <;> (unfold level_for_seconds; split_ifs <;> simp [PALETTE])

/-- Claim C6 witness: a day before the window renders blank even though
the series holds a large value for it, and concrete levels lie in 0..4. -/
theorem padding_days_blank_witness :
    cellFill [(739190, 3600)] 739191 739200 (1, 2, 3) 739190 =
      "#ffffff" ∧
    cellFill [(739191, 3600)] 739191 739200 (1, 2, 3) 739191 =
      PALETTE.getD
        (level_for_seconds (lookupSeconds [(739191, 3600)] 739191)
          (1, 2, 3)) "" ∧
    level_for_seconds 3600 (1, 2, 3) ∈ [0, 1, 2, 3, 4] :=
  ⟨(padding_days_blank [(739190, 3600)] 739191 739200 (1, 2, 3) 739190).1
      (by decide),
   (padding_days_blank [(739191, 3600)] 739191 739200 (1, 2, 3) 739191).2.1
      (by decide),
   ((padding_days_blank [(739191, 3600)] 739191 739200 (1, 2, 3)
      739191).2.2 3600).1⟩

/-- Claim C3 (confirmed): if every attempt is consumed while the server
still reports the aggregation as stale (or a retryable error occurs),
the Fetcher does not raise: it returns the `"data"` of the most recently
successfully-decoded payload, and the empty dict if no payload was ever
decoded.  With `max_tries = 1` the attempt list has one element. -/
theorem fetch_exhaustion_returns_last_payload (rng : String)
    (attempts : List AttemptResult)
    (h : ∀ a ∈ attempts, staleOrRetryable a = true) :
    (lastDecoded none attempts = none →
      fetch_json_with_retry rng attempts none = .ok (.obj [])) ∧
    (∀ p, lastDecoded none attempts = some p →
      ∃ d, pyIndex p "data" = .ok d ∧
        fetch_json_with_retry rng attempts none = .ok d) := by
  have hrun := fetch_stale_run rng attempts none h
  constructor
  · intro hnone
    rw [hrun, hnone]
    rfl
  · intro p hsome
    have hpmem : AttemptResult.payload p ∈ attempts := by
      rcases lastDecoded_mem attempts none p hsome with hmem | hlast
      · exact hmem
      · simp at hlast
    obtain ⟨d, hidx, hex⟩ := fetchExhausted_stale p (h _ hpmem)
    exact ⟨d, hidx, by rw [hrun, hsome]; exact hex⟩

/-- Claim C3 witness: with `max_tries = 1` and the single attempt
yielding a stale payload, the Fetcher returns that payload's data; with
the single attempt a network error, it returns the empty dict. -/
theorem fetch_exhaustion_returns_last_payload_witness :
    (∃ d, pyIndex (.obj [("data", .obj [("is_up_to_date", .bool false)])])
        "data" = .ok d ∧
      fetch_json_with_retry "last_year"
        [.payload (.obj [("data", .obj [("is_up_to_date", .bool false)])])]
        none = .ok d) ∧
    fetch_json_with_retry "last_year" [.netError] none = .ok (.obj []) :=
  ⟨(fetch_exhaustion_returns_last_payload "last_year"
      [.payload (.obj [("data", .obj [("is_up_to_date", .bool false)])])]
      (by decide)).2
      (.obj [("data", .obj [("is_up_to_date", .bool false)])]) rfl,
   (fetch_exhaustion_returns_last_payload "last_year" [.netError]
      (by decide)).1 rfl⟩

/-- Claim C8 (confirmed): HTTP 402 raises immediately with a message
naming the requested range and is never retried; 429/500/502/503/504
and network errors consume the attempt and the loop continues; every
other HTTP error status propagates immediately. -/
theorem fetch_http_error_policy (rng : String) :
    (∀ (rest : List AttemptResult) (last : Option Json),
      fetch_json_with_retry rng (.httpError 402 :: rest) last =
        .error (paymentRequiredMsg rng)) ∧
    (∃ pre post : String, paymentRequiredMsg rng = pre ++ rng ++ post) ∧
    (∀ (c : ℕ) (rest : List AttemptResult) (last : Option Json),
      c ∈ [429, 500, 502, 503, 504] →
      fetch_json_with_retry rng (.httpError c :: rest) last =
        fetch_json_with_retry rng rest last) ∧
    (∀ (rest : List AttemptResult) (last : Option Json),
      fetch_json_with_retry rng (.netError :: rest) last =
        fetch_json_with_retry rng rest last) ∧
    (∀ (c : ℕ) (rest : List AttemptResult) (last : Option Json),
      c ≠ 402 → c ∉ [429, 500, 502, 503, 504] →
      fetch_json_with_retry rng (.httpError c :: rest) last =
        .error (httpErrorMsg c)) := by
  refine ⟨?_, ?_, ?_, ?_, ?_⟩
  · intro rest last
    simp [fetch_json_with_retry]
  · exact ⟨"HTTP 402 PAYMENT REQUIRED for range '",
      "'. Try RANGE=last_year/last_6_months/last_30_days.", rfl⟩
  · intro c rest last hc
    have hc402 : ¬(c = 402) := by
      intro hEq; subst hEq; simp at hc
    simp [fetch_json_with_retry, hc402, hc]
  · intro rest last
    rfl
  · intro c rest last hc402 hcmem
    simp [fetch_json_with_retry, hc402, hcmem]

/-- Claim C8 witness: the error policy at concrete statuses — 402 raises
at once with the range-naming message, 500 and a network error retry,
404 propagates at once. -/
theorem fetch_http_error_policy_witness :
    fetch_json_with_retry "last_year" [.httpError 402, .netError] none =
      .error (paymentRequiredMsg "last_year") ∧
    fetch_json_with_retry "last_year" [.httpError 500, .netError] none =
      fetch_json_with_retry "last_year" [.netError] none ∧
    fetch_json_with_retry "last_year" [.netError] none =
      fetch_json_with_retry "last_year" [] none ∧
    fetch_json_with_retry "last_year" [.httpError 404, .netError] none =
      .error (httpErrorMsg 404) :=
  ⟨(fetch_http_error_policy "last_year").1 [.netError] none,
   (fetch_http_error_policy "last_year").2.2.1 500 [.netError] none
      (by decide),
   (fetch_http_error_policy "last_year").2.2.2.1 [] none,
   (fetch_http_error_policy "last_year").2.2.2.2 404 [.netError] none
      (by decide) (by decide)⟩

/-- Claim C9 witness: the amended non-negativity theorem applied to a
concrete documented-shape response with non-negative totals. -/
theorem parser_values_nonneg_witness :
    ∃ m, parse_days_insight (.obj [("days", .arr
      [.obj [("date", .str "2024-01-01"), ("total", .num 50)],
       .obj [("date", .str "2024-01-02")]])]) = .ok m ∧
      ∀ kv ∈ m, 0 ≤ kv.2 :=
  parser_values_nonneg
    [.obj [("date", .str "2024-01-01"), ("total", .num 50)],
     .obj [("date", .str "2024-01-02")]] (by decide)
